import Mathlib

/-!
Shallow embedding of the vLLM-dashboard process supervisor
(`backend/main.py`, class `VLLMManager`), together with theorems checking
the natural-language specification against it.

Modelling conventions:
* The operating system is an explicit oracle (`OSState`) answering the
  queries the Python code makes (`returncode is not None`, psutil
  `is_running()` / `status()`, TCP connect probes, spawn outcomes,
  signal outcomes).  All registry-mutating operations are pure functions
  of the oracle and the registry.
* The registry `self.processes` (a Python dict keyed by display name)
  is an association list preserving insertion order; well-formedness
  (no duplicate keys) is an explicit hypothesis where needed.
* Exceptions that the Python code lets escape are modelled by an
  explicit `raised` result constructor; exceptions the code catches are
  modelled by the oracle outcome that triggers the handler.
* Strings produced by formatting runtime exception text (`str(e)`) are
  environment-dependent and modelled by the fixed placeholder
  `"exception"` / `"spawn failed"`; no claim depends on their content.
-/

namespace VllmDash

/-- Lifecycle status stored in `info['status']`; the code only ever
stores the three strings `'starting'`, `'running'`, `'zombie'`. -/
inductive EStatus
  | starting
  | running
  | zombie
deriving DecidableEq, Repr

/-- The two provenances of `info['process']`: an asyncio subprocess
handle created by `start_server`, or a `psutil.Process` recorded by
`_discover_running_processes`. -/
inductive ProcHandle
  | spawned (pid : Nat)
  | ext (pid : Nat)
deriving DecidableEq, Repr

/-- One registry value: `{'process': proc, 'port': int | 'N/A', 'status': str}`.
`port = none` models the string `'N/A'` (used for zombies); `some p`
models an `int` port. -/
structure Entry where
  proc : ProcHandle
  port : Option Int
  status : EStatus
deriving DecidableEq, Repr

/-- The registry `self.processes`: insertion-ordered association list. -/
abbrev Registry := List (String × Entry)

/-- Outcome of `os.kill(pid, 9)`. -/
inductive KillOutcome
  | ok
  | noProcess
  | err
deriving DecidableEq, Repr

/-- The OS oracle: answers every query the supervisor makes.  Fixing one
`OSState` models a stable OS state across (and within) calls. -/
structure OSState where
  /-- asyncio handle: `proc.returncode is not None`. -/
  spawnedExited : Nat → Bool
  /-- psutil handle: `proc.is_running()` (never raises). -/
  isRunning : Nat → Bool
  /-- psutil handle: `proc.status()` raises `NoSuchProcess`. -/
  statusRaises : Nat → Bool
  /-- psutil handle: `proc.status() == psutil.STATUS_ZOMBIE` (when it
  does not raise). -/
  statusIsZombie : Nat → Bool
  /-- Ports on which a TCP connect to localhost succeeds
  (`connect_ex == 0`); finitely many. -/
  occupiedPorts : List Int
  /-- `asyncio.create_subprocess_exec`: `some pid` on success, `none`
  when spawning raises. -/
  spawnPid : String → Option Nat
  /-- Outcome of `os.kill(pid, 9)` on the zombie path. -/
  oskill : Nat → KillOutcome
  /-- The handle's `terminate()` raises (e.g. process already gone). -/
  terminateRaises : Nat → Bool
  /-- The 5-second graceful wait times out. -/
  waitTimesOut : Nat → Bool
  /-- The post-timeout `kill()` raises. -/
  killRaises : Nat → Bool

/-- Registry key list (dict key view). -/
def keysOf (reg : Registry) : List String := reg.map Prod.fst

/-- Python `self.processes.get(name)` / `name in self.processes`. -/
def lookupEntry : Registry → String → Option Entry
  | [], _ => none
  | p :: rest, name => if p.1 = name then some p.2 else lookupEntry rest name

/-- Python `del self.processes[name]` (keys are unique in a dict, so
removing every occurrence coincides with removing the one binding). -/
def removeEntry : Registry → String → Registry
  | [], _ => []
  | p :: rest, name =>
      if p.1 = name then removeEntry rest name else p :: removeEntry rest name

/-- Python `self.processes[name] = v`: replace in place if the key
exists, else append. -/
def insertEntry : Registry → String → Entry → Registry
  | [], name, e => [(name, e)]
  | p :: rest, name, e =>
      if p.1 = name then (p.1, e) :: rest else p :: insertEntry rest name e

/-- Whether the first list is an initial segment of the second. -/
def leadsWith : List Char → List Char → Bool
  | [], _ => true
  | _ :: _, [] => false
  | a :: as, b :: bs => a == b && leadsWith as bs

/-- Whether the first list occurs contiguously inside the second. -/
def occursIn : List Char → List Char → Bool
  | needle, [] => needle.isEmpty
  | needle, c :: rest => leadsWith needle (c :: rest) || occursIn needle rest

/-- Substring containment, Python's `needle in haystack` on strings. -/
def containsSubstr (haystack needle : String) : Bool :=
  occursIn needle.toList haystack.toList

/-- Python `' '.join(cmdline)`. -/
def joinSpace (l : List String) : String := String.intercalate " " l

/-- A scanned process record as produced by
`psutil.process_iter(['pid', 'name', 'cmdline', 'ppid'])`. -/
structure ProcInfo where
  pid : Nat
  name : String
  cmdline : List String
  ppid : Nat
deriving DecidableEq, Repr

/-- The `cmd_str` of the discovery loop:
`' '.join(cmdline) if cmdline else name`. -/
def cmdStrOf (p : ProcInfo) : String :=
  if p.cmdline = [] then p.name else joinSpace p.cmdline

/-- Greedy digit-prefix split of a character list. -/
def takeDigits : List Char → List Char × List Char
  | [] => ([], [])
  | c :: rest =>
      if c.isDigit then
        let (d, r) := takeDigits rest
        (c :: d, r)
      else ([], c :: rest)

/-- Digit list to number (most significant first). -/
def digitsToNat (ds : List Char) : Nat :=
  ds.foldl (fun n c => n * 10 + (c.toNat - '0'.toNat)) 0

/-- Python `int(s)` on a command-line token: an optional sign followed
by one or more digits (surrounding whitespace and digit-group
underscores, which Python also accepts, do not occur in the command
lines at issue and are treated as parse failures). -/
def parseIntToken (s : String) : Option Int :=
  let core : List Char → Option Int := fun cs =>
    match takeDigits cs with
    | ([], _) => none
    | (ds, []) => some (digitsToNat ds)
    | (_, _ :: _) => none
  match s.toList with
  | '-' :: rest => (core rest).map (fun n => -n)
  | '+' :: rest => core rest
  | cs => core cs

/-- The positional-argument scan of `_discover_running_processes`:
`for i, arg in enumerate(cmdline)`, assigning the model name from the
token after each `'serve'` and the port from the token after each
`'--port'` (parse failures keep the previous value).  The iteration is
expressed over adjacent pairs, which is equivalent because each step
only reads `cmdline[i]` and `cmdline[i+1]` under the guard
`i + 1 < len(cmdline)`. -/
def extractMP : String → Int → List String → String × Int
  | m, pt, [] => (m, pt)
  | m, pt, [_] => (m, pt)
  | m, pt, a :: b :: rest =>
      extractMP (if a = "serve" then b else m)
        (if a = "--port" then (parseIntToken b).getD pt else pt) (b :: rest)

/-- Model-name/port extraction starting from the defaults
`model_name = "Unknown"`, `port = 8001`. -/
def extractModelPort (cmdline : List String) : String × Int :=
  extractMP "Unknown" 8001 cmdline

/-- The display name chosen by discovery for a serving process. -/
def displayNameOf (p : ProcInfo) : String :=
  let m := (extractModelPort p.cmdline).1
  if m = "Unknown" then "Unknown (PID:" ++ toString p.pid ++ ")" else m

/-- The synthesized registry key for a discovered zombie worker:
`f"Zombie Process ({pid})"`. -/
def zombieName (pid : Nat) : String :=
  "Zombie Process (" ++ toString pid ++ ")"

/-- The serving-process classification test of the discovery loop:
`'vllm' in cmd_str` and `'serve' in cmdline`. -/
def servingMatch (p : ProcInfo) : Bool :=
  containsSubstr (cmdStrOf p) "vllm" && p.cmdline.contains "serve"

/-- The zombie-worker classification test:
`('VLLM::EngineCore' in cmd_str or 'VLLM::EngineCore' in name)` and
`ppid == 1`. -/
def zombieMatch (p : ProcInfo) : Bool :=
  (containsSubstr (cmdStrOf p) "VLLM::EngineCore"
      || containsSubstr p.name "VLLM::EngineCore")
    && p.ppid == 1

/-- The discovery loop body over the scanned process list, threading the
registry.  A serving match registers a `running` entry and `continue`s;
otherwise the zombie test may register a `zombie` entry. -/
def discoverGo : List ProcInfo → Registry → Registry
  | [], reg => reg
  | p :: rest, reg =>
      if servingMatch p then
        discoverGo rest
          (insertEntry reg (displayNameOf p)
            ⟨.ext p.pid, some (extractModelPort p.cmdline).2, .running⟩)
      else if zombieMatch p then
        discoverGo rest
          (insertEntry reg (zombieName p.pid) ⟨.ext p.pid, none, .zombie⟩)
      else discoverGo rest reg

/-- `_discover_running_processes`, seeding an empty registry from the
process table. -/
def discover (procs : List ProcInfo) : Registry := discoverGo procs []

/-- `_is_port_in_use`: a successful TCP connect (`connect_ex == 0`)
means in use. -/
def isPortInUse (os : OSState) (p : Int) : Bool :=
  decide (p ∈ os.occupiedPorts)

/-- The scan loop of `_get_next_free_port`, with explicit fuel:
`while _is_port_in_use(port): port += 1`.  With fuel
`occ.length + 1` the fuel can never run out (pigeonhole, proved below),
so this is the exact result of the source's unbounded loop. -/
def findFreeFrom (occ : List Int) : Int → Nat → Int
  | p, 0 => p
  | p, fuel + 1 => if p ∈ occ then findFreeFrom occ (p + 1) fuel else p

/-- `_get_next_free_port` generalized over the base port. -/
def nextFreePort (occ : List Int) (base : Int) : Int :=
  findFreeFrom occ base (occ.length + 1)

/-- `self.base_port`. -/
def basePort : Int := 8001

/-- `_get_next_free_port(self)`. -/
def getNextFreePort (os : OSState) : Int :=
  nextFreePort os.occupiedPorts basePort

/-- Result of `start_server`: a structured `{'status': ..., 'message': ...}`
dict, or an exception escaping the method (`raised`). -/
inductive StartResult
  | success (message : String) (port : Int)
  | error (message : String)
  | raised (message : String)
deriving DecidableEq, Repr

/-- The capacity-limit error message of `start_server`. -/
def capacityMessage : String := "Max model limit reached (3). Stop a model first."

/-- Rendering of `info['port']` inside messages. -/
def portString : Option Int → String
  | some p => toString p
  | none => "N/A"

/-- `start_server(model_name)`.  Stage 1 is the already-present check:
for a self-spawned handle, `returncode is not None` purges the stale
entry, otherwise the call errors; for an externally discovered handle
(`psutil.Process`), reading `.returncode` raises `AttributeError`,
which nothing in the method catches.  Stage 2 is the capacity check
`len(self.processes) >= 3` (all entries counted).  Stage 3 allocates
a port and spawns; a spawn exception is caught and returned as an
error (message text is `str(e)`, modelled by a placeholder). -/
def startServer (os : OSState) (reg : Registry) (modelName : String) :
    Registry × StartResult :=
  let step1 : Registry ⊕ (Registry × StartResult) :=
    match lookupEntry reg modelName with
    | none => Sum.inl reg
    | some e =>
        match e.proc with
        | .spawned p =>
            if os.spawnedExited p then Sum.inl (removeEntry reg modelName)
            else
              Sum.inr (reg, .error ("Model " ++ modelName
                ++ " is already running on port " ++ portString e.port))
        | .ext _ => Sum.inr (reg, .raised "AttributeError: returncode")
  match step1 with
  | Sum.inr out => out
  | Sum.inl reg1 =>
      if reg1.length ≥ 3 then (reg1, .error capacityMessage)
      else
        let port := getNextFreePort os
        match os.spawnPid modelName with
        | none => (reg1, .error "spawn failed")
        | some pid =>
            (insertEntry reg1 modelName ⟨.spawned pid, some port, .starting⟩,
             .success ("Starting " ++ modelName ++ " on port " ++ toString port)
               port)

/-- Result of `stop_server`: always a structured dict. -/
structure StopResult where
  status : String
  message : String
deriving DecidableEq, Repr

/-- First match of the regex `\((\d+)\)` in a character list, as used by
`re.search(r'\((\d+)\)', name)`: the first `'('` followed by a nonempty
maximal digit run followed by `')'`. -/
def findParenNumber : List Char → Option Nat
  | [] => none
  | c :: rest =>
      if c = '(' then
        match takeDigits rest with
        | ([], _) => findParenNumber rest
        | (ds, r) =>
            match r with
            | ')' :: _ => some (digitsToNat ds)
            | _ => findParenNumber rest
      else findParenNumber rest

/-- The zombie-branch test of `stop_server`:
`"Zombie Process" in name and str(proc_info.get('status')) == 'zombie'`. -/
def zombieTarget (name : String) (e : Entry) : Bool :=
  containsSubstr name "Zombie Process" && (e.status == .zombie)

/-- The pid carried by either kind of handle. -/
def pidOf : ProcHandle → Nat
  | .spawned p => p
  | .ext p => p

/-- One iteration of the `for name in targets` loop of `stop_server`:
returns the updated registry and the result message appended (if any).
On the zombie path, `os.kill` failures fall back to a shell `kill -9`
(`subprocess.run` without `check` does not raise on a failed kill), so
the entry is always deleted.  On the normal path, the graceful
terminate / 5-second wait / hard kill sequence may raise; the handler
still deletes the entry and records an error message.  The
port-cleanup `lsof` step sits in a bare `try/except: pass` and touches
no registry state. -/
def stopOne (os : OSState) (reg : Registry) (name : String) :
    Registry × Option String :=
  match lookupEntry reg name with
  | none => (reg, none)
  | some info =>
      if zombieTarget name info then
        let _killOutcome :=
          match findParenNumber name.toList with
          | some pid => os.oskill pid
          | none => KillOutcome.ok
        (removeEntry reg name, some ("Killed zombie " ++ name))
      else
        let p := pidOf info.proc
        if os.terminateRaises p then
          (removeEntry reg name,
           some ("Error stopping structure for " ++ name ++ ": exception"))
        else if os.waitTimesOut p && os.killRaises p then
          (removeEntry reg name,
           some ("Error stopping structure for " ++ name ++ ": exception"))
        else (removeEntry reg name, some ("Stopped " ++ name))

/-- The `for name in targets` loop, threading the registry and
collecting result messages in order. -/
def stopLoop (os : OSState) : Registry → List String → Registry × List String
  | reg, [] => (reg, [])
  | reg, n :: rest =>
      ((stopLoop os (stopOne os reg n).1 rest).1,
       match (stopOne os reg n).2 with
       | some m => m :: (stopLoop os (stopOne os reg n).1 rest).2
       | none => (stopLoop os (stopOne os reg n).1 rest).2)

/-- `stop_server(model_name=None)`.  A named target that is not
registered errors with `not found`; otherwise the loop runs over the
resolved targets (all current keys when no name is given) and the
result status is `"success"` with the messages joined by `", "`. -/
def stopServer (os : OSState) (reg : Registry) (name : Option String) :
    Registry × StopResult :=
  match name with
  | some n =>
      match lookupEntry reg n with
      | none => (reg, ⟨"error", "Model " ++ n ++ " not found"⟩)
      | some _ =>
          ((stopLoop os reg [n]).1,
           ⟨"success", String.intercalate ", " (stopLoop os reg [n]).2⟩)
  | none =>
      ((stopLoop os reg (keysOf reg)).1,
       ⟨"success", String.intercalate ", " (stopLoop os reg (keysOf reg)).2⟩)

/-- The per-entry death check of `get_status`.  For a psutil handle the
code runs `if not proc.is_running() or proc.status() == STATUS_ZOMBIE:
pass else: pass` inside `try ... except NoSuchProcess: is_dead = True`,
so `is_dead` becomes true only when `is_running()` returned true and
`status()` then raised; a vanished PID (`is_running()` false) leaves
`is_dead` false.  For an asyncio handle: `returncode is not None`. -/
def isDeadCheck (os : OSState) : ProcHandle → Bool
  | .spawned p => os.spawnedExited p
  | .ext p => os.isRunning p && os.statusRaises p

/-- The in-place status refresh of `get_status`: a `starting` entry with
an `int` port that answers the connect probe becomes `running`. -/
def updateEntry (os : OSState) (e : Entry) : Entry :=
  if e.status = .starting then
    match e.port with
    | some p => if isPortInUse os p then { e with status := .running } else e
    | none => e
  else e

/-- Whether the `get_status` loop marks this entry for removal:
dead and not a zombie. -/
def markedDead (os : OSState) (p : String × Entry) : Bool :=
  isDeadCheck os p.2.proc && !(p.2.status == .zombie)

/-- The `get_status` iteration: returns `models_to_remove`, the
`active_models` rows, and the registry with in-place status updates
(entries marked for removal are not yet purged, matching the source's
two-phase structure). -/
def getStatusAux (os : OSState) :
    Registry → List String × List (String × Option Int × EStatus) × Registry
  | [] => ([], [], [])
  | p :: rest =>
      if markedDead os p then
        (p.1 :: (getStatusAux os rest).1,
         (getStatusAux os rest).2.1,
         p :: (getStatusAux os rest).2.2)
      else
        ((getStatusAux os rest).1,
         (p.1, (updateEntry os p.2).port, (updateEntry os p.2).status)
           :: (getStatusAux os rest).2.1,
         (p.1, updateEntry os p.2) :: (getStatusAux os rest).2.2)

/-- The returned status snapshot:
`{'running': len(active_models) > 0, 'models': active_models}`. -/
structure StatusOut where
  running : Bool
  models : List (String × Option Int × EStatus)
deriving DecidableEq, Repr

/-- `get_status()`: iterate all entries, then purge everything marked
for removal, then report the remaining rows plus the `running` flag. -/
def getStatus (os : OSState) (reg : Registry) : Registry × StatusOut :=
  ((getStatusAux os reg).1.foldl removeEntry (getStatusAux os reg).2.2,
   ⟨!(getStatusAux os reg).2.1.isEmpty, (getStatusAux os reg).2.1⟩)

/-- One external request to the lifecycle controller. -/
inductive Op
  | start (name : String)
  | stop (name : Option String)
deriving DecidableEq, Repr

/-- Registry effect of one request under a given OS state. -/
def applyOp (os : OSState) (reg : Registry) : Op → Registry
  | .start n => (startServer os reg n).1
  | .stop n => (stopServer os reg n).1

/-- A sequence of requests, each under its own OS state. -/
def runOps : List (OSState × Op) → Registry → Registry
  | [], reg => reg
  | (os, op) :: rest, reg => runOps rest (applyOp os reg op)

/-- Number of non-zombie entries in the registry. -/
def nonZombieCount (reg : Registry) : Nat :=
  (reg.filter fun p => !(p.2.status == .zombie)).length

/-- Modelled from the spec: liveness of an externally discovered entry
as §4.4 words it — "whether the OS still lists the PID as running and
non-zombie".  Used only to compare the spec's contract against the
code's `isDeadCheck`. -/
def specExternalAlive (os : OSState) (pid : Nat) : Bool :=
  os.isRunning pid && !os.statusIsZombie pid

/-- Modelled from the spec: the claimed zombie-name pattern
`zombie (pid:<PID>)` — the literal prefix `"zombie (pid:"`, one or
more digits, then `")"`. -/
def claimedZombiePattern (s : String) : Bool :=
  let pre := "zombie (pid:".toList
  let cs := s.toList
  if cs.take pre.length = pre then
    match takeDigits (cs.drop pre.length) with
    | ([], _) => false
    | (_, r) => r = [')']
  else false

/-- The per-entry effect of one `get_status` pass, as a single step:
a dead non-zombie entry is dropped, every other entry is kept with its
status refreshed.  `get_status` is proved equal to `filterMap` of this
step over the registry. -/
def statusStep (os : OSState) (p : String × Entry) : Option (String × Entry) :=
  if markedDead os p then none else some (p.1, updateEntry os p.2)

/-- The row `{"name": ..., "port": ..., "status": ...}` reported for a
surviving entry. -/
def modelRow (q : String × Entry) : String × Option Int × EStatus :=
  (q.1, q.2.port, q.2.status)

/-- A default OS oracle used for concrete runs: no process has exited,
every PID is listed as running, no query raises, no port is bound,
spawns succeed with PID 100, signals succeed. -/
def osDefault : OSState where
  spawnedExited := fun _ => false
  isRunning := fun _ => true
  statusRaises := fun _ => false
  statusIsZombie := fun _ => false
  occupiedPorts := []
  spawnPid := fun _ => some 100
  oskill := fun _ => .ok
  terminateRaises := fun _ => false
  waitTimesOut := fun _ => false
  killRaises := fun _ => false

example : nextFreePort [8001, 8002] 8001 = 8003 := by decide

example :
    discover [⟨31, "python", ["/home/u/vllm/venv/bin/vllm", "serve", "gpt2",
      "--port", "8005"], 10⟩]
      = [("gpt2", ⟨.ext 31, some 8005, .running⟩)] := by decide

example :
    discover [⟨4242, "VLLM::EngineCore", ["VLLM::EngineCore"], 1⟩]
      = [(zombieName 4242, ⟨.ext 4242, none, .zombie⟩)] := by decide

example : claimedZombiePattern "Zombie Process (4242)" = false := by decide

example : claimedZombiePattern "zombie (pid:4242)" = true := by decide

example :
    startServer osDefault [] "a"
      = ([("a", ⟨.spawned 100, some 8001, .starting⟩)],
         .success "Starting a on port 8001" 8001) := by decide

/-! ### Association-list registry lemmas -/

theorem keysOf_cons (p : String × Entry) (rest : Registry) :
    keysOf (p :: rest) = p.1 :: keysOf rest := rfl

theorem lookupEntry_eq_none_iff {reg : Registry} {n : String} :
    lookupEntry reg n = none ↔ n ∉ keysOf reg := by
  induction reg with
  | nil => simp [lookupEntry, keysOf]
  | cons p rest ih =>
      rw [keysOf_cons, List.mem_cons, lookupEntry]
      by_cases h : p.1 = n
      · rw [if_pos h]
        constructor
        · intro hx; exact absurd hx (by simp)
        · intro hx; exact absurd (Or.inl h.symm) hx
      · have h' : ¬ n = p.1 := fun hn => h hn.symm
        rw [if_neg h, ih]
        constructor
        · intro hx hor; exact hx (hor.resolve_left h')
        · intro hx hm; exact hx (Or.inr hm)

theorem removeEntry_of_not_mem {reg : Registry} {n : String}
    (h : n ∉ keysOf reg) : removeEntry reg n = reg := by
  induction reg with
  | nil => rfl
  | cons p rest ih =>
      rw [keysOf_cons, List.mem_cons] at h
      push_neg at h
      have hp : ¬ p.1 = n := fun hpn => h.1 hpn.symm
      rw [removeEntry, if_neg hp, ih h.2]

theorem removeEntry_eq_filter (reg : Registry) (n : String) :
    removeEntry reg n = reg.filter (fun p => decide (p.1 ≠ n)) := by
  induction reg with
  | nil => rfl
  | cons p rest ih =>
      by_cases h : p.1 = n
      · simp [removeEntry, h, ih]
      · simp [removeEntry, h, ih]

theorem lookupEntry_removeEntry_self (reg : Registry) (n : String) :
    lookupEntry (removeEntry reg n) n = none := by
  induction reg with
  | nil => rfl
  | cons p rest ih =>
      by_cases h : p.1 = n
      · simpa [removeEntry, h]
      · simpa [removeEntry, lookupEntry, h]

theorem length_removeEntry_le (reg : Registry) (n : String) :
    (removeEntry reg n).length ≤ reg.length := by
  rw [removeEntry_eq_filter]
  exact List.length_filter_le _ _

theorem lookupEntry_insertEntry (reg : Registry) (n m : String) (e : Entry) :
    lookupEntry (insertEntry reg n e) m
      = if m = n then some e else lookupEntry reg m := by
  induction reg with
  | nil =>
      by_cases h : m = n
      · subst h
        simp [insertEntry, lookupEntry]
      · have h' : ¬ n = m := fun hn => h hn.symm
        simp [insertEntry, lookupEntry, h, h']
  | cons p rest ih =>
      by_cases h : p.1 = n
      · by_cases hm : m = n
        · subst hm
          simp [insertEntry, lookupEntry, h]
        · have hpm : ¬ p.1 = m := fun hn => hm ((hn.symm).trans h)
          have hnm : ¬ n = m := fun hn => hm hn.symm
          simp [insertEntry, lookupEntry, h, hm, hpm, hnm]
      · by_cases hpm : p.1 = m
        · have hmn : ¬ m = n := fun hmn => h (hpm.trans hmn)
          simp [insertEntry, lookupEntry, h, hpm, hmn]
        · simp [insertEntry, lookupEntry, h, hpm, ih]

theorem length_insertEntry_le (reg : Registry) (n : String) (e : Entry) :
    (insertEntry reg n e).length ≤ reg.length + 1 := by
  induction reg with
  | nil => simp [insertEntry]
  | cons p rest ih =>
      by_cases h : p.1 = n
      · simp [insertEntry, h]
      · simp only [insertEntry, h, if_false, List.length_cons]
        omega

/-! ### stop_server lemmas -/

theorem filter_and_filter {α : Type} (l : List α) (p q : α → Bool) :
    (l.filter q).filter p = l.filter (fun a => p a && q a) := by
  induction l with
  | nil => rfl
  | cons a l ih =>
      cases hq : q a <;> cases hp : p a <;>
        simp [List.filter_cons, hq, hp, ih]

theorem filter_eq_nil_of_forall {α : Type} (l : List α) (p : α → Bool)
    (h : ∀ a ∈ l, p a = false) : l.filter p = [] := by
  induction l with
  | nil => rfl
  | cons a l ih =>
      simp only [List.filter_cons, h a (by simp)]
      exact ih fun b hb => h b (by simp [hb])

theorem stopOne_fst (os : OSState) (reg : Registry) (n : String) :
    (stopOne os reg n).1 = removeEntry reg n := by
  unfold stopOne
  cases h : lookupEntry reg n with
  | none => exact (removeEntry_of_not_mem (lookupEntry_eq_none_iff.mp h)).symm
  | some info =>
      by_cases hz : zombieTarget n info = true
      · simp [hz]
      · by_cases h1 : os.terminateRaises (pidOf info.proc) = true
        · simp [hz, h1]
        · by_cases h2 :
            (os.waitTimesOut (pidOf info.proc) && os.killRaises (pidOf info.proc))
              = true
          · simp [hz, h1, h2]
          · simp [hz, h1, h2]

theorem stopLoop_fst (os : OSState) (ts : List String) :
    ∀ reg : Registry, (stopLoop os reg ts).1 = ts.foldl removeEntry reg := by
  induction ts with
  | nil => intro reg; rfl
  | cons t ts ih =>
      intro reg
      have h1 : (stopLoop os reg (t :: ts)).1
          = (stopLoop os (stopOne os reg t).1 ts).1 := rfl
      rw [h1, ih, stopOne_fst, List.foldl_cons]

theorem foldl_removeEntry_eq_filter (ts : List String) :
    ∀ reg : Registry,
      ts.foldl removeEntry reg = reg.filter (fun p => decide (p.1 ∉ ts)) := by
  induction ts with
  | nil => intro reg; simp
  | cons t ts ih =>
      intro reg
      rw [List.foldl_cons, ih, removeEntry_eq_filter, filter_and_filter]
      refine List.filter_congr ?_
      intro p _
      by_cases h1 : p.1 = t
      · simp [h1]
      · by_cases h2 : p.1 ∈ ts <;> simp [h1, h2]

theorem stopServer_some_fst (os : OSState) (reg : Registry) (n : String) :
    (stopServer os reg (some n)).1 = removeEntry reg n := by
  cases h : lookupEntry reg n with
  | none =>
      simp only [stopServer, h]
      exact (removeEntry_of_not_mem (lookupEntry_eq_none_iff.mp h)).symm
  | some info =>
      simp only [stopServer, h]
      rw [stopLoop_fst]
      simp [List.foldl]

theorem stopServer_none_fst (os : OSState) (reg : Registry) :
    (stopServer os reg none).1 = [] := by
  show (stopLoop os reg (keysOf reg)).1 = []
  rw [stopLoop_fst, foldl_removeEntry_eq_filter]
  refine filter_eq_nil_of_forall _ _ ?_
  intro p hp
  simp only [decide_eq_false_iff_not, not_not]
  exact List.mem_map_of_mem Prod.fst hp

theorem stopServer_length_le (os : OSState) (reg : Registry) (n : Option String) :
    ((stopServer os reg n).1).length ≤ reg.length := by
  cases n with
  | none => simp [stopServer_none_fst]
  | some m => rw [stopServer_some_fst]; exact length_removeEntry_le reg m

theorem stopServer_some_status (os : OSState) (reg : Registry) (n : String)
    (h : (lookupEntry reg n).isSome = true) :
    ((stopServer os reg (some n)).2).status = "success" := by
  cases hl : lookupEntry reg n with
  | none => rw [hl] at h; simp at h
  | some info => simp only [stopServer, hl]

theorem stopServer_none_status (os : OSState) (reg : Registry) :
    ((stopServer os reg none).2).status = "success" := rfl

/-! ### Port allocator lemmas -/

theorem free_port_exists (occ : List Int) (p : Int) :
    ∃ k : Nat, k < occ.length + 1 ∧ (p + (k : Int)) ∉ occ := by
  by_contra hcon
  push_neg at hcon
  have hinj : Function.Injective (fun k : Nat => p + (k : Int)) := by
    intro a b hab
    simp only [add_right_inj, Int.natCast_inj] at hab
    exact hab
  have hnd : ((List.range (occ.length + 1)).map
      (fun k : Nat => p + (k : Int))).Nodup :=
    (List.nodup_range _).map hinj
  have hsub : ((List.range (occ.length + 1)).map
      (fun k : Nat => p + (k : Int))) ⊆ occ := by
    intro x hx
    rw [List.mem_map] at hx
    obtain ⟨k, hk, rfl⟩ := hx
    exact hcon k (List.mem_range.mp hk)
  have hlen := (List.subperm_of_subset hnd hsub).length_le
  simp at hlen

theorem findFreeFrom_spec (occ : List Int) :
    ∀ (fuel : Nat) (p : Int), (∃ k : Nat, k < fuel ∧ (p + (k : Int)) ∉ occ) →
      findFreeFrom occ p fuel ∉ occ ∧ p ≤ findFreeFrom occ p fuel ∧
        ∀ q : Int, p ≤ q → q < findFreeFrom occ p fuel → q ∈ occ := by
  intro fuel
  induction fuel with
  | zero =>
      intro p h
      obtain ⟨k, hk, _⟩ := h
      omega
  | succ fuel ih =>
      intro p h
      by_cases hc : p ∈ occ
      · rw [findFreeFrom, if_pos hc]
        obtain ⟨k, hk, hfree⟩ := h
        have hk0 : k ≠ 0 := by
          intro h0
          subst h0
          simp at hfree
          exact hfree hc
        have hwit : ∃ k' : Nat, k' < fuel ∧ ((p + 1) + (k' : Int)) ∉ occ := by
          refine ⟨k - 1, by omega, ?_⟩
          have : (p + 1) + ((k - 1 : Nat) : Int) = p + (k : Int) := by
            push_cast [Nat.cast_sub (Nat.one_le_iff_ne_zero.mpr hk0)]
            ring
          rw [this]
          exact hfree
        obtain ⟨h1, h2, h3⟩ := ih (p + 1) hwit
        refine ⟨h1, by omega, ?_⟩
        intro q hq1 hq2
        by_cases hqp : q = p
        · exact hqp ▸ hc
        · exact h3 q (by omega) hq2
      · rw [findFreeFrom, if_neg hc]
        exact ⟨hc, le_refl p, fun q hq1 hq2 => absurd (lt_of_le_of_lt hq1 hq2)
          (lt_irrefl p)⟩

theorem nextFreePort_spec (occ : List Int) (base : Int) :
    nextFreePort occ base ∉ occ ∧ base ≤ nextFreePort occ base ∧
      ∀ q : Int, base ≤ q → q < nextFreePort occ base → q ∈ occ :=
  findFreeFrom_spec occ (occ.length + 1) base (free_port_exists occ base)

/-! ### start_server lemmas -/

theorem nonZombieCount_le_length (reg : Registry) :
    nonZombieCount reg ≤ reg.length :=
  List.length_filter_le _ reg

theorem startServer_capacity_reject (os : OSState) (reg : Registry)
    (name : String) (h : lookupEntry reg name = none) (h3 : 3 ≤ reg.length) :
    startServer os reg name = (reg, .error capacityMessage) := by
  simp only [startServer, h]
  rw [if_pos h3]

theorem startServer_length (os : OSState) (reg : Registry) (name : String)
    (h : reg.length ≤ 3) : ((startServer os reg name).1).length ≤ 3 := by
  cases hl : lookupEntry reg name with
  | none =>
      simp only [startServer, hl]
      by_cases h3 : reg.length ≥ 3
      · rw [if_pos h3]; exact h
      · rw [if_neg h3]
        cases hs : os.spawnPid name with
        | none => exact h
        | some pid =>
            have := length_insertEntry_le reg name
              ⟨.spawned pid, some (getNextFreePort os), .starting⟩
            dsimp only
            omega
  | some e =>
      cases hp : e.proc with
      | spawned q =>
          by_cases hd : os.spawnedExited q = true
          · have hrl : (removeEntry reg name).length ≤ reg.length :=
              length_removeEntry_le reg name
            simp only [startServer, hl, hp, hd, if_true]
            by_cases h3 : (removeEntry reg name).length ≥ 3
            · rw [if_pos h3]; dsimp only; omega
            · rw [if_neg h3]
              cases hs : os.spawnPid name with
              | none => dsimp only; omega
              | some pid =>
                  have := length_insertEntry_le (removeEntry reg name) name
                    ⟨.spawned pid, some (getNextFreePort os), .starting⟩
                  dsimp only
                  omega
          · simp only [startServer, hl, hp, hd, if_false]
            exact h
      | ext q =>
          simp only [startServer, hl, hp]
          exact h

theorem startServer_success_port (os : OSState) (reg : Registry)
    (name : String) (reg' : Registry) (msg : String) (p : Int)
    (h : startServer os reg name = (reg', .success msg p)) :
    p = getNextFreePort os := by
  have main : ∀ reg1 : Registry,
      (if reg1.length ≥ 3 then (reg1, StartResult.error capacityMessage)
        else
          match os.spawnPid name with
          | none => (reg1, StartResult.error "spawn failed")
          | some pid =>
              (insertEntry reg1 name
                ⟨.spawned pid, some (getNextFreePort os), .starting⟩,
               .success ("Starting " ++ name ++ " on port "
                 ++ toString (getNextFreePort os)) (getNextFreePort os)))
        = (reg', .success msg p) → p = getNextFreePort os := by
    intro reg1 hh
    by_cases h3 : reg1.length ≥ 3
    · rw [if_pos h3] at hh
      simp at hh
    · rw [if_neg h3] at hh
      cases hs : os.spawnPid name with
      | none => rw [hs] at hh; simp at hh
      | some pid =>
          rw [hs] at hh
          have := congrArg Prod.snd hh
          simp only [] at this
          injection this with _ hport
          exact hport.symm
  cases hl : lookupEntry reg name with
  | none =>
      simp only [startServer, hl] at h
      exact main reg h
  | some e =>
      cases hp : e.proc with
      | spawned q =>
          by_cases hd : os.spawnedExited q = true
          · simp only [startServer, hl, hp, hd, if_true] at h
            exact main (removeEntry reg name) h
          · simp only [startServer, hl, hp, hd, if_false] at h
            simp at h
      | ext q =>
          simp only [startServer, hl, hp] at h
          simp at h

/-! ### Operation sequences -/

theorem applyOp_length (os : OSState) (reg : Registry) (op : Op)
    (h : reg.length ≤ 3) : (applyOp os reg op).length ≤ 3 := by
  cases op with
  | start n => exact startServer_length os reg n h
  | stop n => exact le_trans (stopServer_length_le os reg n) h

theorem runOps_length (ops : List (OSState × Op)) :
    ∀ reg : Registry, reg.length ≤ 3 → (runOps ops reg).length ≤ 3 := by
  induction ops with
  | nil => intro reg h; exact h
  | cons p ops ih =>
      intro reg h
      exact ih (applyOp p.1 reg p.2) (applyOp_length p.1 reg p.2 h)

/-! ### Discovery lemmas -/

theorem extractMP_fst_const :
    ∀ (l : List String) (m : String) (pt : Int),
      "serve" ∉ l → (extractMP m pt l).1 = m := by
  intro l
  induction l with
  | nil => intro m pt _; rfl
  | cons a l ih =>
      intro m pt h
      cases l with
      | nil => rfl
      | cons b rest =>
          have ha : ¬ a = "serve" := fun he => h (by simp [he])
          rw [extractMP, if_neg ha]
          exact ih _ _ (fun hb => h (List.mem_cons_of_mem a hb))

theorem extractMP_snd_const :
    ∀ (l : List String) (m : String) (pt : Int),
      "--port" ∉ l → (extractMP m pt l).2 = pt := by
  intro l
  induction l with
  | nil => intro m pt _; rfl
  | cons a l ih =>
      intro m pt h
      cases l with
      | nil => rfl
      | cons b rest =>
          have ha : ¬ a = "--port" := fun he => h (by simp [he])
          rw [extractMP, if_neg ha]
          exact ih _ _ (fun hb => h (List.mem_cons_of_mem a hb))

theorem extractMP_fst_serve :
    ∀ (pre : List String) (post : List String) (m : String) (pt : Int),
      "serve" ∉ pre → "serve" ∉ post →
        (extractMP m pt (pre ++ "serve" :: post)).1 = post.headD m := by
  intro pre
  induction pre with
  | nil =>
      intro post m pt _ hpost
      cases post with
      | nil => rfl
      | cons b rest =>
          rw [List.nil_append, extractMP, if_pos rfl,
            if_neg (by decide : ¬ "serve" = "--port")]
          exact extractMP_fst_const _ _ _ hpost
  | cons a pre ih =>
      intro post m pt hpre hpost
      have ha : ¬ a = "serve" := fun he => hpre (by simp [he])
      have hpre' : "serve" ∉ pre := fun hb => hpre (List.mem_cons_of_mem a hb)
      cases hE : pre ++ "serve" :: post with
      | nil => exact absurd hE (by simp)
      | cons c cs =>
          rw [List.cons_append, hE, extractMP, if_neg ha, ← hE]
          exact ih post _ _ hpre' hpost

theorem extractMP_snd_port :
    ∀ (pre : List String) (post : List String) (m : String) (pt : Int),
      "--port" ∉ pre → "--port" ∉ post →
        (extractMP m pt (pre ++ "--port" :: post)).2
          = (match post with
             | [] => pt
             | b :: _ => (parseIntToken b).getD pt) := by
  intro pre
  induction pre with
  | nil =>
      intro post m pt _ hpost
      cases post with
      | nil => rfl
      | cons b rest =>
          rw [List.nil_append, extractMP,
            if_neg (by decide : ¬ "--port" = "serve"), if_pos rfl]
          exact extractMP_snd_const _ _ _ hpost
  | cons a pre ih =>
      intro post m pt hpre hpost
      have ha : ¬ a = "--port" := fun he => hpre (by simp [he])
      have hpre' : "--port" ∉ pre := fun hb => hpre (List.mem_cons_of_mem a hb)
      cases hE : pre ++ "--port" :: post with
      | nil => exact absurd hE (by simp)
      | cons c cs =>
          rw [List.cons_append, hE, extractMP, if_neg ha, ← hE]
          exact ih post _ _ hpre' hpost

theorem discover_single_serving (p : ProcInfo) (h : servingMatch p = true) :
    discover [p]
      = [(displayNameOf p,
          ⟨.ext p.pid, some (extractModelPort p.cmdline).2, .running⟩)] := by
  simp [discover, discoverGo, h, insertEntry]

theorem discover_single_not_serving (p : ProcInfo) (h : servingMatch p = false) :
    ∀ n e, lookupEntry (discover [p]) n = some e → e.status = .zombie := by
  intro n e hl
  by_cases hz : zombieMatch p = true
  · simp only [discover, discoverGo, h, Bool.false_eq_true, if_false, hz,
      if_true, insertEntry, lookupEntry] at hl
    by_cases hn : zombieName p.pid = n
    · rw [if_pos hn] at hl
      injection hl with he
      rw [← he]
    · rw [if_neg hn] at hl
      cases hl
  · simp only [discover, discoverGo, h, Bool.false_eq_true, if_false, hz,
      lookupEntry] at hl
    cases hl

theorem discoverGo_zombie_name :
    ∀ (procs : List ProcInfo) (reg : Registry),
      (∀ n e, lookupEntry reg n = some e → e.status = .zombie →
        ∃ pid, n = zombieName pid) →
      ∀ n e, lookupEntry (discoverGo procs reg) n = some e →
        e.status = .zombie → ∃ pid, n = zombieName pid := by
  intro procs
  induction procs with
  | nil => intro reg h; exact h
  | cons p procs ih =>
      intro reg h
      by_cases hs : servingMatch p = true
      · simp only [discoverGo, hs, if_true]
        apply ih
        intro n e hl hz
        rw [lookupEntry_insertEntry] at hl
        by_cases hn : n = displayNameOf p
        · rw [if_pos hn] at hl
          injection hl with he
          rw [← he] at hz
          simp at hz
        · rw [if_neg hn] at hl
          exact h n e hl hz
      · by_cases hz2 : zombieMatch p = true
        · simp only [discoverGo, hs, Bool.false_eq_true, if_false, hz2, if_true]
          apply ih
          intro n e hl hzz
          rw [lookupEntry_insertEntry] at hl
          by_cases hn : n = zombieName p.pid
          · exact ⟨p.pid, hn⟩
          · rw [if_neg hn] at hl
            exact h n e hl hzz
        · simp only [discoverGo, hs, Bool.false_eq_true, if_false, hz2]
          exact ih reg h

theorem discover_zombie_name (procs : List ProcInfo) :
    ∀ n e, lookupEntry (discover procs) n = some e → e.status = .zombie →
      ∃ pid, n = zombieName pid := by
  apply discoverGo_zombie_name
  intro n e hl
  cases hl

/-! ### get_status lemmas -/

theorem getStatusAux_rem (os : OSState) :
    ∀ reg : Registry,
      (getStatusAux os reg).1 = (reg.filter (markedDead os)).map Prod.fst := by
  intro reg
  induction reg with
  | nil => rfl
  | cons p rest ih =>
      by_cases h : markedDead os p = true <;>
        simp [getStatusAux, h, List.filter_cons, ih]

theorem getStatusAux_act (os : OSState) :
    ∀ reg : Registry,
      (getStatusAux os reg).2.1
        = (reg.filter (fun p => !markedDead os p)).map
            (fun p => (p.1, (updateEntry os p.2).port, (updateEntry os p.2).status)) := by
  intro reg
  induction reg with
  | nil => rfl
  | cons p rest ih =>
      by_cases h : markedDead os p = true <;>
        simp [getStatusAux, h, List.filter_cons, ih]

theorem getStatusAux_reg (os : OSState) :
    ∀ reg : Registry,
      (getStatusAux os reg).2.2
        = reg.map (fun p =>
            if markedDead os p then p else (p.1, updateEntry os p.2)) := by
  intro reg
  induction reg with
  | nil => rfl
  | cons p rest ih =>
      by_cases h : markedDead os p = true <;>
        simp [getStatusAux, h, ih]

theorem filterMap_statusStep (os : OSState) :
    ∀ reg : Registry,
      reg.filterMap (statusStep os)
        = (reg.filter (fun p => !markedDead os p)).map
            (fun p => (p.1, updateEntry os p.2)) := by
  intro reg
  induction reg with
  | nil => rfl
  | cons p rest ih =>
      by_cases h : markedDead os p = true <;>
        simp [List.filterMap_cons, List.filter_cons, statusStep, h, ih]

theorem mem_eq_of_keys_nodup :
    ∀ reg : Registry, (keysOf reg).Nodup →
      ∀ p q : String × Entry, p ∈ reg → q ∈ reg → p.1 = q.1 → p = q := by
  intro reg
  induction reg with
  | nil => intro _ p q hp; cases hp
  | cons r rest ih =>
      intro hnd p q hp hq hpq
      rw [keysOf_cons, List.nodup_cons] at hnd
      rcases List.mem_cons.mp hp with hp1 | hp2 <;>
        rcases List.mem_cons.mp hq with hq1 | hq2
      · rw [hp1, hq1]
      · exfalso
        apply hnd.1
        rw [← hp1, hpq]
        exact List.mem_map_of_mem Prod.fst hq2
      · exfalso
        apply hnd.1
        rw [← hq1, ← hpq]
        exact List.mem_map_of_mem Prod.fst hp2
      · exact ih hnd.2 p q hp2 hq2 hpq

theorem key_mem_marked_iff (os : OSState) (reg : Registry)
    (hnd : (keysOf reg).Nodup) (p : String × Entry) (hp : p ∈ reg) :
    p.1 ∈ (reg.filter (markedDead os)).map Prod.fst ↔ markedDead os p = true := by
  constructor
  · intro hmem
    rw [List.mem_map] at hmem
    obtain ⟨q, hq, hqp⟩ := hmem
    have hq2 := List.mem_filter.mp hq
    have : q = p := mem_eq_of_keys_nodup reg hnd q p hq2.1 hp hqp
    exact this ▸ hq2.2
  · intro hm
    exact List.mem_map_of_mem Prod.fst (List.mem_filter.mpr ⟨hp, hm⟩)

theorem filter_key_map (S : List String) (f : String × Entry → String × Entry)
    (hf : ∀ p, (f p).1 = p.1) :
    ∀ reg : Registry,
      (reg.map f).filter (fun q => decide (q.1 ∉ S))
        = (reg.filter (fun q => decide (q.1 ∉ S))).map f := by
  intro reg
  induction reg with
  | nil => rfl
  | cons p rest ih =>
      simp only [List.map_cons, List.filter_cons, hf p]
      by_cases h : p.1 ∈ S
      · simp only [decide_not] at ih
        simp [h, ih]
      · simp only [decide_not] at ih
        simp [h, ih]

theorem filter_map_purge (os : OSState) (reg : Registry) (S : List String)
    (hS : ∀ p ∈ reg, (p.1 ∈ S ↔ markedDead os p = true)) :
    ((reg.map (fun p =>
        if markedDead os p then p else (p.1, updateEntry os p.2))).filter
          (fun q => decide (q.1 ∉ S)))
      = reg.filterMap (statusStep os) := by
  rw [filter_key_map S _ (fun p => by by_cases h : markedDead os p = true <;> simp [h])]
  have hfil : reg.filter (fun q => decide (q.1 ∉ S))
      = reg.filter (fun q => !markedDead os q) := by
    refine List.filter_congr ?_
    intro q hq
    by_cases hm : markedDead os q = true
    · have : q.1 ∈ S := (hS q hq).mpr hm
      simp [this, hm]
    · have : q.1 ∉ S := fun hin => hm ((hS q hq).mp hin)
      simp [this, hm]
  rw [hfil, filterMap_statusStep]
  refine List.map_congr_left ?_
  intro q hq
  have hm : markedDead os q = false := by
    have := (List.mem_filter.mp hq).2
    simpa using this
  simp [hm]

theorem getStatus_fst (os : OSState) (reg : Registry)
    (hnd : (keysOf reg).Nodup) :
    (getStatus os reg).1 = reg.filterMap (statusStep os) := by
  show ((getStatusAux os reg).1.foldl removeEntry (getStatusAux os reg).2.2)
    = reg.filterMap (statusStep os)
  rw [getStatusAux_rem, getStatusAux_reg, foldl_removeEntry_eq_filter]
  exact filter_map_purge os reg _ (fun p hp => key_mem_marked_iff os reg hnd p hp)

theorem getStatus_models (os : OSState) (reg : Registry) :
    (getStatus os reg).2.models = (reg.filterMap (statusStep os)).map modelRow := by
  show (getStatusAux os reg).2.1 = _
  rw [getStatusAux_act, filterMap_statusStep, List.map_map]
  rfl

theorem getStatus_running (os : OSState) (reg : Registry) :
    (getStatus os reg).2.running = !(getStatus os reg).2.models.isEmpty := rfl

theorem updateEntry_proc (os : OSState) (e : Entry) :
    (updateEntry os e).proc = e.proc := by
  obtain ⟨pr, po, st⟩ := e
  cases st with
  | starting =>
      cases po with
      | none => rfl
      | some p => by_cases hp : isPortInUse os p = true <;> simp [updateEntry, hp]
  | running => rfl
  | zombie => rfl

theorem updateEntry_port (os : OSState) (e : Entry) :
    (updateEntry os e).port = e.port := by
  obtain ⟨pr, po, st⟩ := e
  cases st with
  | starting =>
      cases po with
      | none => rfl
      | some p => by_cases hp : isPortInUse os p = true <;> simp [updateEntry, hp]
  | running => rfl
  | zombie => rfl

theorem updateEntry_zombie (os : OSState) (e : Entry) :
    ((updateEntry os e).status == EStatus.zombie)
      = (e.status == EStatus.zombie) := by
  obtain ⟨pr, po, st⟩ := e
  cases st with
  | starting =>
      cases po with
      | none => rfl
      | some p => by_cases hp : isPortInUse os p = true <;> simp [updateEntry, hp]
  | running => rfl
  | zombie => rfl

theorem updateEntry_idem (os : OSState) (e : Entry) :
    updateEntry os (updateEntry os e) = updateEntry os e := by
  obtain ⟨pr, po, st⟩ := e
  cases st with
  | starting =>
      cases po with
      | none => rfl
      | some p =>
          by_cases hp : isPortInUse os p = true
          · have h1 : updateEntry os ⟨pr, some p, .starting⟩
                = ⟨pr, some p, .running⟩ := by
              simp [updateEntry, hp]
            rw [h1]
            rfl
          · have h1 : updateEntry os ⟨pr, some p, .starting⟩
                = ⟨pr, some p, .starting⟩ := by
              simp [updateEntry, hp]
            rw [h1, h1]
  | running => rfl
  | zombie => rfl

theorem markedDead_updateEntry (os : OSState) (n : String) (e : Entry) :
    markedDead os (n, updateEntry os e) = markedDead os (n, e) := by
  unfold markedDead
  rw [updateEntry_proc, updateEntry_zombie]

theorem statusStep_mem_fix (os : OSState) (reg : Registry) (q : String × Entry)
    (hq : q ∈ reg.filterMap (statusStep os)) : statusStep os q = some q := by
  rw [List.mem_filterMap] at hq
  obtain ⟨p, _, hstep⟩ := hq
  by_cases hm : markedDead os p = true
  · rw [statusStep, if_pos hm] at hstep
    cases hstep
  · rw [statusStep, if_neg hm] at hstep
    injection hstep with he
    rw [statusStep, ← he]
    have hm2 : markedDead os (p.1, updateEntry os p.2) = false := by
      rw [markedDead_updateEntry]
      show markedDead os p = false
      exact Bool.not_eq_true _ ▸ (by simpa using hm)
    rw [if_neg (by rw [hm2]; exact Bool.false_ne_true)]
    show some (p.1, updateEntry os (updateEntry os p.2)) = some (p.1, updateEntry os p.2)
    rw [updateEntry_idem]

theorem filterMap_fix_eq_self {α : Type} (f : α → Option α) :
    ∀ l : List α, (∀ q ∈ l, f q = some q) → l.filterMap f = l := by
  intro l
  induction l with
  | nil => intro _; rfl
  | cons a l ih =>
      intro h
      rw [List.filterMap_cons, h a (List.mem_cons_self a l),
        ih (fun q hq => h q (List.mem_cons_of_mem a hq))]

theorem keysOf_filterMap_nodup (os : OSState) (reg : Registry)
    (hnd : (keysOf reg).Nodup) :
    (keysOf (reg.filterMap (statusStep os))).Nodup := by
  rw [filterMap_statusStep]
  have : keysOf ((reg.filter (fun p => !markedDead os p)).map
      (fun p => (p.1, updateEntry os p.2)))
      = (reg.filter (fun p => !markedDead os p)).map Prod.fst := by
    unfold keysOf
    rw [List.map_map]
    rfl
  rw [this]
  have hsub : (reg.filter (fun p => !markedDead os p)).Sublist reg :=
    List.filter_sublist reg
  exact List.Nodup.sublist (hsub.map Prod.fst) hnd

theorem getStatus_idem (os : OSState) (reg : Registry)
    (hnd : (keysOf reg).Nodup) :
    getStatus os (getStatus os reg).1 = getStatus os reg := by
  have hfst : (getStatus os reg).1 = reg.filterMap (statusStep os) :=
    getStatus_fst os reg hnd
  have h1 : (keysOf ((getStatus os reg).1)).Nodup := by
    rw [hfst]; exact keysOf_filterMap_nodup os reg hnd
  have hfix : ((getStatus os reg).1).filterMap (statusStep os)
      = (getStatus os reg).1 := by
    refine filterMap_fix_eq_self _ _ ?_
    intro q hq
    rw [hfst] at hq
    exact statusStep_mem_fix os reg q hq
  have e1 : (getStatus os ((getStatus os reg).1)).1 = (getStatus os reg).1 :=
    (getStatus_fst os _ h1).trans hfix
  have e2 : (getStatus os ((getStatus os reg).1)).2.models
      = (getStatus os reg).2.models := by
    rw [getStatus_models, hfix, getStatus_models, ← hfst]
  have e3 : (getStatus os ((getStatus os reg).1)).2.running
      = (getStatus os reg).2.running := by
    rw [getStatus_running, getStatus_running, e2]
  calc getStatus os ((getStatus os reg).1)
      = ((getStatus os ((getStatus os reg).1)).1,
         ⟨(getStatus os ((getStatus os reg).1)).2.running,
          (getStatus os ((getStatus os reg).1)).2.models⟩) := rfl
    _ = ((getStatus os reg).1,
         ⟨(getStatus os reg).2.running, (getStatus os reg).2.models⟩) := by
          rw [e1, e2, e3]
    _ = getStatus os reg := rfl

/-! ### Claim theorems -/

/-- C1 counterexample: the capacity check `len(self.processes) >= 3`
counts zombie entries too.  With one zombie and only two non-zombie
active entries registered, a Start of a fresh name is rejected with the
capacity message — refuting the claim that zombie entries do not count
toward the ceiling and that only ≥ 3 non-zombie entries trigger the
rejection. -/
theorem C1_counterexample :
    nonZombieCount
        [(zombieName 9, ⟨.ext 9, none, .zombie⟩),
         ("a", ⟨.spawned 1, some 8001, .running⟩),
         ("b", ⟨.spawned 2, some 8002, .running⟩)] = 2
    ∧ startServer osDefault
        [(zombieName 9, ⟨.ext 9, none, .zombie⟩),
         ("a", ⟨.spawned 1, some 8001, .running⟩),
         ("b", ⟨.spawned 2, some 8002, .running⟩)] "c"
      = ([(zombieName 9, ⟨.ext 9, none, .zombie⟩),
          ("a", ⟨.spawned 1, some 8001, .running⟩),
          ("b", ⟨.spawned 2, some 8002, .running⟩)],
         .error capacityMessage) := by
  constructor
  · decide
  · decide

/-- C1 (amended): the capacity ceiling counts every registry entry
regardless of status, zombies included.  Over any sequence of Start and
Stop calls from a registry of at most 3 entries, the registry never
exceeds 3 entries (hence never 3 non-zombie entries); and a Start of a
name that is not registered, issued while the registry holds ≥ 3
entries of any status, returns the capacity-limit error and leaves the
registry unchanged (the request is rejected, not queued). -/
theorem C1_capacity_ceiling :
    (∀ (ops : List (OSState × Op)) (reg : Registry), reg.length ≤ 3 →
      nonZombieCount (runOps ops reg) ≤ 3 ∧ (runOps ops reg).length ≤ 3)
    ∧ (∀ (os : OSState) (reg : Registry) (name : String),
        lookupEntry reg name = none → 3 ≤ reg.length →
          startServer os reg name = (reg, .error capacityMessage)) := by
  constructor
  · intro ops reg h
    exact ⟨le_trans (nonZombieCount_le_length _) (runOps_length ops reg h),
      runOps_length ops reg h⟩
  · intro os reg name h1 h2
    exact startServer_capacity_reject os reg name h1 h2

/-- Witness for C1: a concrete two-start run stays within the ceiling,
and a concrete Start against a full three-entry registry is rejected
with the capacity message. -/
theorem C1_capacity_ceiling_witness :
    nonZombieCount
        (runOps [(osDefault, .start "a"), (osDefault, .start "b")] []) ≤ 3
    ∧ startServer osDefault
        [("a", ⟨.spawned 1, some 8001, .starting⟩),
         ("b", ⟨.spawned 2, some 8002, .starting⟩),
         ("c", ⟨.spawned 3, some 8003, .starting⟩)] "d"
      = ([("a", ⟨.spawned 1, some 8001, .starting⟩),
          ("b", ⟨.spawned 2, some 8002, .starting⟩),
          ("c", ⟨.spawned 3, some 8003, .starting⟩)],
         .error capacityMessage) :=
  ⟨(C1_capacity_ceiling.1 [(osDefault, .start "a"), (osDefault, .start "b")]
      [] (by decide)).1,
   C1_capacity_ceiling.2 osDefault
     [("a", ⟨.spawned 1, some 8001, .starting⟩),
      ("b", ⟨.spawned 2, some 8002, .starting⟩),
      ("c", ⟨.spawned 3, some 8003, .starting⟩)] "d" (by decide) (by decide)⟩

/-- C2 (code bug): `start_server` reads `proc_info['process'].returncode`
without branching on the handle's provenance.  For an entry recorded by
discovery the handle is a `psutil.Process`, which has no `returncode`
attribute, so the already-present check raises an uncaught
`AttributeError` instead of returning the `AlreadyRunning` error result
— for every OS state. -/
theorem C2_returncode_attribute_error (os : OSState) :
    startServer os [("gpt2", ⟨.ext 31, some 8005, .running⟩)] "gpt2"
      = ([("gpt2", ⟨.ext 31, some 8005, .running⟩)],
         .raised "AttributeError: returncode") := rfl

/-- C3 counterexample: an externally discovered non-zombie entry whose
PID the OS no longer lists as running (`is_running()` returns false) is
retained by `get_status` with its stale `running` status, because the
code sets `is_dead` only inside the `except NoSuchProcess` handler —
refuting the claim that every non-zombie entry whose liveness check
reports death is removed. -/
theorem C3_counterexample :
    specExternalAlive { osDefault with isRunning := fun _ => false } 7 = false
    ∧ getStatus { osDefault with isRunning := fun _ => false }
        [("m", ⟨.ext 7, some 8001, .running⟩)]
      = ([("m", ⟨.ext 7, some 8001, .running⟩)],
         ⟨true, [("m", some 8001, .running)]⟩) := by
  constructor
  · decide
  · decide

/-- C3 (amended): the per-entry contract of `status()` with the death
check the code actually performs (`isDeadCheck`): a self-spawned entry
is dead when its `returncode` is set; an externally discovered entry is
classified dead only when `is_running()` is true and the subsequent
`status()` query raises process-gone (a vanished PID is retained).  The
surviving registry is exactly the `filterMap` of the per-entry step
(dead non-zombie entries dropped, zombies retained, `starting` entries
with a reachable integer port promoted to `running`), the reported rows
are the surviving entries' rows, and the `running` flag is true iff at
least one entry remains. -/
theorem C3_status_contract :
    (∀ (os : OSState) (reg : Registry), (keysOf reg).Nodup →
      (getStatus os reg).1 = reg.filterMap (statusStep os))
    ∧ (∀ (os : OSState) (reg : Registry),
        (getStatus os reg).2.models
          = (reg.filterMap (statusStep os)).map modelRow)
    ∧ (∀ (os : OSState) (reg : Registry),
        (getStatus os reg).2.running = !(getStatus os reg).2.models.isEmpty)
    ∧ (∀ (os : OSState) (reg : Registry), (keysOf reg).Nodup →
        (getStatus os reg).2.running = !((getStatus os reg).1.isEmpty)) := by
  refine ⟨getStatus_fst, getStatus_models, getStatus_running, ?_⟩
  intro os reg h
  rw [getStatus_running, getStatus_models, getStatus_fst os reg h]
  cases reg.filterMap (statusStep os) <;> rfl

/-- Witness for C3: the contract evaluated on a concrete registry under
the default OS oracle. -/
theorem C3_status_contract_witness :
    (getStatus osDefault [("m", ⟨.spawned 1, some 8001, .running⟩)]).1
      = [("m", ⟨.spawned 1, some 8001, .running⟩)].filterMap
          (statusStep osDefault)
    ∧ (getStatus osDefault [("m", ⟨.spawned 1, some 8001, .running⟩)]).2.running
      = !((getStatus osDefault
            [("m", ⟨.spawned 1, some 8001, .running⟩)]).1.isEmpty) :=
  ⟨C3_status_contract.1 osDefault [("m", ⟨.spawned 1, some 8001, .running⟩)]
     (by decide),
   C3_status_contract.2.2.2 osDefault
     [("m", ⟨.spawned 1, some 8001, .running⟩)] (by decide)⟩

/-- C4 (confirmed): discovery classifies a process as a running serving
instance exactly when the joined command line contains `vllm` and
`serve` is a separate argument; the token after the unique `serve` is
the model identifier (default `Unknown`), the token after the unique
`--port` is the parsed port (default 8001, parse failures ignored); the
concrete argv from the claim yields a `running` entry `gpt2` on port
8005, and a serve command with no model token yields
`Unknown (PID:77)` on port 8001. -/
theorem C4_discovery_classification :
    (∀ p : ProcInfo,
      servingMatch p
        = (containsSubstr (joinSpace p.cmdline) "vllm"
            && p.cmdline.contains "serve"))
    ∧ (∀ p : ProcInfo, servingMatch p = true →
        discover [p]
          = [(displayNameOf p,
              ⟨.ext p.pid, some (extractModelPort p.cmdline).2, .running⟩)])
    ∧ (∀ p : ProcInfo, servingMatch p = false →
        ∀ n e, lookupEntry (discover [p]) n = some e → e.status = .zombie)
    ∧ (∀ pre post : List String, "serve" ∉ pre → "serve" ∉ post →
        (extractModelPort (pre ++ "serve" :: post)).1 = post.headD "Unknown")
    ∧ (∀ pre post : List String, "--port" ∉ pre → "--port" ∉ post →
        (extractModelPort (pre ++ "--port" :: post)).2
          = (match post with
             | [] => 8001
             | b :: _ => (parseIntToken b).getD 8001))
    ∧ discover [⟨31, "python",
        ["/home/u/vllm/venv/bin/vllm", "serve", "gpt2", "--port", "8005"], 10⟩]
        = [("gpt2", ⟨.ext 31, some 8005, .running⟩)]
    ∧ discover [⟨77, "python", ["vllm", "serve"], 5⟩]
        = [("Unknown (PID:77)", ⟨.ext 77, some 8001, .running⟩)] := by
  refine ⟨?_, discover_single_serving, discover_single_not_serving,
    ?_, ?_, by decide, by decide⟩
  · intro p
    by_cases h : p.cmdline = []
    · simp [servingMatch, cmdStrOf, h]
    · simp [servingMatch, cmdStrOf, h]
  · intro pre post h1 h2
    exact extractMP_fst_serve pre post "Unknown" 8001 h1 h2
  · intro pre post h1 h2
    exact extractMP_snd_port pre post "Unknown" 8001 h1 h2

/-- Witness for C4: the classification and extraction applied to
concrete command lines, including an unparsable `--port` value that is
silently ignored. -/
theorem C4_discovery_classification_witness :
    discover [⟨31, "python",
        ["/home/u/vllm/venv/bin/vllm", "serve", "gpt2", "--port", "8005"], 10⟩]
      = [(displayNameOf ⟨31, "python",
            ["/home/u/vllm/venv/bin/vllm", "serve", "gpt2", "--port", "8005"],
            10⟩,
          ⟨.ext 31,
           some (extractModelPort
             ["/home/u/vllm/venv/bin/vllm", "serve", "gpt2", "--port", "8005"]).2,
           .running⟩)]
    ∧ (extractModelPort (["/x/vllm"] ++ "serve" :: ["gpt2"])).1 = "gpt2"
    ∧ (extractModelPort (["vllm", "serve", "m"] ++ "--port" :: ["80x5"])).2
        = 8001 :=
  ⟨C4_discovery_classification.2.1 _ (by decide),
   (C4_discovery_classification.2.2.2.1 ["/x/vllm"] ["gpt2"]
       (by decide) (by decide)).trans (by decide),
   (C4_discovery_classification.2.2.2.2.1 ["vllm", "serve", "m"] ["80x5"]
       (by decide) (by decide)).trans (by decide)⟩

/-- C5 counterexample: the zombie entry created by discovery for an
orphaned engine worker with PID 4242 is named `Zombie Process (4242)`,
which does not match the claimed pattern `zombie (pid:<PID>)`. -/
theorem C5_name_pattern_counterexample :
    discover [⟨4242, "VLLM::EngineCore", ["VLLM::EngineCore"], 1⟩]
      = [(zombieName 4242, ⟨.ext 4242, none, .zombie⟩)]
    ∧ zombieName 4242 = "Zombie Process (4242)"
    ∧ claimedZombiePattern (zombieName 4242) = false := by
  refine ⟨by decide, by decide, by decide⟩

/-- C5 (amended): every zombie entry created by discovery is named
`Zombie Process (<PID>)` (not `zombie (pid:<PID>)`), and a Stop call on
that exact name removes the entry from the registry — hence from every
later `status()` result — under every OS oracle, in particular when the
kill-signal delivery fails. -/
theorem C5_zombie_name_and_stop :
    (∀ (procs : List ProcInfo) (n : String) (e : Entry),
      lookupEntry (discover procs) n = some e → e.status = .zombie →
        ∃ pid, n = zombieName pid)
    ∧ (∀ (os : OSState) (reg : Registry) (pid : Nat),
        lookupEntry ((stopServer os reg (some (zombieName pid))).1)
          (zombieName pid) = none) := by
  refine ⟨discover_zombie_name, ?_⟩
  intro os reg pid
  rw [stopServer_some_fst]
  exact lookupEntry_removeEntry_self reg (zombieName pid)

/-- Witness for C5: the discovered zombie of PID 4242 has a name of the
synthesized shape, and stopping it under an oracle whose kill signal
errors still removes it. -/
theorem C5_zombie_name_and_stop_witness :
    (∃ pid, "Zombie Process (4242)" = zombieName pid)
    ∧ lookupEntry
        ((stopServer { osDefault with oskill := fun _ => .err }
            [(zombieName 4242, ⟨.ext 4242, none, .zombie⟩)]
            (some (zombieName 4242))).1)
        (zombieName 4242) = none :=
  ⟨C5_zombie_name_and_stop.1
     [⟨4242, "VLLM::EngineCore", ["VLLM::EngineCore"], 1⟩]
     "Zombie Process (4242)" ⟨.ext 4242, none, .zombie⟩ (by decide) (by decide),
   C5_zombie_name_and_stop.2 { osDefault with oskill := fun _ => .err }
     [(zombieName 4242, ⟨.ext 4242, none, .zombie⟩)] 4242⟩

/-- C6 (confirmed): for every OS oracle — in particular for every
combination of terminate/wait/kill failures — a Stop of a named target
leaves no entry of that name registered, and a Stop of all targets
empties the registry; kill and terminate failures never leave the entry
registered. -/
theorem C6_stop_always_removes :
    (∀ (os : OSState) (reg : Registry) (n : String),
      lookupEntry ((stopServer os reg (some n)).1) n = none)
    ∧ (∀ (os : OSState) (reg : Registry), (stopServer os reg none).1 = []) := by
  refine ⟨?_, stopServer_none_fst⟩
  intro os reg n
  rw [stopServer_some_fst]
  exact lookupEntry_removeEntry_self reg n

/-- C7 (confirmed): the port scan returns a port that is free, at least
the base, and preceded only by in-use ports — i.e. the first free port
probing upward from the base, where a successful connect means in-use
and a failed connect means free; concretely, with 8001 and 8002
occupied it returns 8003. -/
theorem C7_next_free_port :
    (∀ (occ : List Int) (base : Int),
      nextFreePort occ base ∉ occ
      ∧ base ≤ nextFreePort occ base
      ∧ ∀ q : Int, base ≤ q → q < nextFreePort occ base → q ∈ occ)
    ∧ nextFreePort [8001, 8002] 8001 = 8003 :=
  ⟨nextFreePort_spec, by decide⟩

/-- Witness for C7: the minimality clause applied to the concrete probe
of port 8002 below the returned port 8003. -/
theorem C7_next_free_port_witness :
    (8002 : Int) ∈ ([8001, 8002] : List Int)
    ∧ nextFreePort [8001, 8002] 8001 = 8003 :=
  ⟨(C7_next_free_port.1 [8001, 8002] 8001).2.2 8002 (by decide) (by decide),
   C7_next_free_port.2⟩

/-- C8 counterexample: the allocator only probes OS sockets, not
registry bookkeeping.  While a first instance is still `starting` and
has not yet bound its port (the OS reports no occupied ports), a second
Start receives the same port 8001 — two distinct non-zombie entries
hold equal ports simultaneously, refuting the uniqueness claim. -/
theorem C8_duplicate_port_counterexample :
    (startServer osDefault [] "modelA").1
      = [("modelA", ⟨.spawned 100, some 8001, .starting⟩)]
    ∧ (startServer osDefault
        [("modelA", ⟨.spawned 100, some 8001, .starting⟩)] "modelB").1
      = [("modelA", ⟨.spawned 100, some 8001, .starting⟩),
         ("modelB", ⟨.spawned 100, some 8001, .starting⟩)] := by
  constructor
  · decide
  · decide

/-- C8 (amended): the port assigned by a successful Start is distinct
only from ports the OS currently reports as bound: it is the least port
at or above the base that is not accepting connections at allocation
time.  No uniqueness against ports held by other registry entries is
enforced, so entries whose processes have not yet bound their ports can
be assigned duplicates. -/
theorem C8_port_allocation (os : OSState) (reg : Registry) (name : String)
    (reg' : Registry) (msg : String) (p : Int)
    (h : startServer os reg name = (reg', .success msg p)) :
    p ∉ os.occupiedPorts ∧ basePort ≤ p
      ∧ ∀ q : Int, basePort ≤ q → q < p → q ∈ os.occupiedPorts := by
  rw [startServer_success_port os reg name reg' msg p h]
  exact nextFreePort_spec os.occupiedPorts basePort

/-- Witness for C8: the guarantee instantiated on a concrete successful
Start that allocates port 8001 on a host with no bound ports. -/
theorem C8_port_allocation_witness :
    (8001 : Int) ∉ osDefault.occupiedPorts ∧ basePort ≤ (8001 : Int) :=
  ⟨(C8_port_allocation osDefault [] "a"
      [("a", ⟨.spawned 100, some 8001, .starting⟩)]
      "Starting a on port 8001" 8001 (by decide)).1,
   (C8_port_allocation osDefault [] "a"
      [("a", ⟨.spawned 100, some 8001, .starting⟩)]
      "Starting a on port 8001" 8001 (by decide)).2.1⟩

/-- C9 (confirmed): under a fixed OS oracle, running `get_status` a
second time on the registry left by a first run returns the identical
registry and the identical snapshot — so repeated `status()` calls with
no intervening Start/Stop and a stable OS state return identical
`models` lists. -/
theorem C9_status_idempotent (os : OSState) (reg : Registry)
    (hnd : (keysOf reg).Nodup) :
    getStatus os (getStatus os reg).1 = getStatus os reg :=
  getStatus_idem os reg hnd

/-- Witness for C9: idempotence on a concrete two-entry registry. -/
theorem C9_status_idempotent_witness :
    getStatus osDefault
        (getStatus osDefault
          [("m", ⟨.spawned 1, some 8001, .starting⟩),
           ("z", ⟨.ext 9, none, .zombie⟩)]).1
      = getStatus osDefault
          [("m", ⟨.spawned 1, some 8001, .starting⟩),
           ("z", ⟨.ext 9, none, .zombie⟩)] :=
  C9_status_idempotent osDefault
    [("m", ⟨.spawned 1, some 8001, .starting⟩),
     ("z", ⟨.ext 9, none, .zombie⟩)] (by decide)

/-- C10 (confirmed, implicit claim): whenever the Stop target resolves
(the name is registered, or no name is given), the returned result's
top-level status field is `"success"` for every OS oracle — in
particular when every kill/terminate attempt raised — so per-target
failures surface only in the joined message string, never as
`status:"error"`. -/
theorem C10_stop_status_success :
    (∀ (os : OSState) (reg : Registry) (n : String),
      (lookupEntry reg n).isSome = true →
        ((stopServer os reg (some n)).2).status = "success")
    ∧ (∀ (os : OSState) (reg : Registry),
        ((stopServer os reg none).2).status = "success") :=
  ⟨stopServer_some_status, stopServer_none_status⟩

/-- Witness for C10: a concrete Stop whose terminate call raises still
reports top-level success, with the failure only in the message. -/
theorem C10_stop_status_success_witness :
    ((stopServer { osDefault with terminateRaises := fun _ => true }
        [("m", ⟨.spawned 5, some 8001, .running⟩)] (some "m")).2).status
      = "success"
    ∧ (stopServer { osDefault with terminateRaises := fun _ => true }
        [("m", ⟨.spawned 5, some 8001, .running⟩)] (some "m")).2
      = ⟨"success", "Error stopping structure for m: exception"⟩ :=
  ⟨C10_stop_status_success.1 { osDefault with terminateRaises := fun _ => true }
     [("m", ⟨.spawned 5, some 8001, .running⟩)] "m" (by decide),
   by decide⟩

end VllmDash
